import Mathlib

/-
  Verification of the real-time pipeline-event synchronization subsystem of
  the VibeCC dashboard.

  Shallow embedding of:
  - src/vibecc/dashboard/src/hooks/useSSE.ts        (connection state machine,
    reconnection policy, event decoding/dispatch)
  - src/vibecc/dashboard/src/hooks/useLogStream.ts  (scoped log tail)
  - src/vibecc/dashboard/src/pages/BoardPage.tsx    (cache reconciliation observer)

  The hook state is modelled as a record mirroring the React refs and the
  status state variable; the external stimuli (transport open, transport
  error, reconnect-timer firing, prop changes re-running the effect, inbound
  frames) are modelled as explicit step functions.  JSON payloads are
  modelled by an inductive value type; JSON.parse is modelled as an Option,
  with a parse failure corresponding to the thrown exception that ends that
  one listener invocation and nothing else.
-/

namespace VibeCC

/-- SSEStatus from types/api.ts: the tri-state connection indicator. -/
inductive SSEStatus
  | disconnected
  | connecting
  | connected
deriving DecidableEq, Repr

/-- A JSON value (output of JSON.parse). Objects are association lists. -/
inductive JValue
  | jnull
  | jbool (b : Bool)
  | jnum (n : Int)
  | jstr (s : String)
  | obj (fields : List (String × JValue))

/-- Field lookup on a JSON value: some v for the first binding of the key in
an object, none on missing keys and non-objects (JS property access giving
undefined). -/
def JValue.getField : JValue → String → Option JValue
  | .obj fields, k =>
    match fields.find? (fun kv => kv.1 = k) with
    | some kv => some kv.2
    | none => none
  | _, _ => none

/-- Strict equality `v === t` between a JS value (possibly undefined, i.e.
none) and a string t: true exactly when the value is the string t; undefined
and non-string values never strictly equal a string. -/
def strictEqStr : Option JValue → String → Bool
  | some (.jstr s), t => s = t
  | _, _ => false

/-- The raw data string of an inbound frame, as seen by JSON.parse: either
it parses to a JSON value or JSON.parse throws a SyntaxError. -/
inductive RawData
  | valid (j : JValue)
  | invalid

/-- JSON.parse: some j on success, none when it throws. -/
def parseJson : RawData → Option JValue
  | .valid j => some j
  | .invalid => none

/-- A decoded event delivered to onEvent: `{ type: eventType, data }`. -/
structure SSEEvent where
  type : String
  data : JValue

/-- SSE_URL from useSSE.ts. -/
def SSE_URL : String := "/api/v1/events/stream"

/-- RECONNECT_BASE_MS from useSSE.ts. -/
def RECONNECT_BASE_MS : Nat := 1000

/-- RECONNECT_MAX_MS from useSSE.ts. -/
def RECONNECT_MAX_MS : Nat := 30000

/-- EVENT_TYPES from useSSE.ts: the labels the hook registers listeners
for.  Note heartbeat is absent. -/
def EVENT_TYPES : List String :=
  ["pipeline_created", "pipeline_updated", "pipeline_completed", "log"]

/-- The five event-type labels of the SSEEventType union in types/api.ts
(the wire contract's defined labels). -/
def SSE_EVENT_TYPE_LABELS : List String :=
  ["pipeline_created", "pipeline_updated", "pipeline_completed", "log", "heartbeat"]

/-- The URL `${SSE_URL}?project_id=${projectId}` built in connect. -/
def sseUrl (projectId : String) : String :=
  SSE_URL ++ "?project_id=" ++ projectId

/-- The state of one mounted useSSE hook instance: the `status` React state
variable, the refs (eventSourceRef as an open/closed flag plus the URL the
EventSource was opened with, reconnectTimeoutRef as the pending delay,
reconnectAttemptRef), and the current props. -/
structure HookState where
  status : SSEStatus
  es : Bool
  esUrl : String
  reconnectTimer : Option Nat
  attempt : Nat
  enabled : Bool
  projectId : String
deriving DecidableEq, Repr

/-- The backoff delay computed in es.onerror:
`Math.min(RECONNECT_BASE_MS * 2 ** reconnectAttemptRef.current, RECONNECT_MAX_MS)`,
as a function of the attempt counter read there. -/
def reconnectDelay (attempt : Nat) : Nat :=
  min (RECONNECT_BASE_MS * 2 ^ attempt) RECONNECT_MAX_MS

/-- connect() from useSSE.ts: sets status to connecting and opens a new
EventSource at the URL for the current projectId, storing it in the ref. -/
def connect (s : HookState) : HookState :=
  { s with status := .connecting, es := true, esUrl := sseUrl s.projectId }

/-- es.onopen: fires only on the open EventSource; sets status to connected
and resets the attempt counter to 0. -/
def onOpen (s : HookState) : HookState :=
  if s.es then { s with status := .connected, attempt := 0 } else s

/-- es.onerror: fires only on the open EventSource; closes it, nulls the
ref, sets status to disconnected, schedules a reconnect timer with the
backoff delay computed from the current counter, then increments the
counter. -/
def onError (s : HookState) : HookState :=
  if s.es then
    { s with es := false, esUrl := "", status := .disconnected,
             reconnectTimer := some (reconnectDelay s.attempt),
             attempt := s.attempt + 1 }
  else s

/-- The reconnect timer firing: only a still-scheduled timer fires; its
callback calls connect(). -/
def timerFire (s : HookState) : HookState :=
  match s.reconnectTimer with
  | some _ => connect { s with reconnectTimer := none }
  | none => s

/-- The effect cleanup from useSSE.ts: closes the EventSource if the ref is
set, clears the reconnect timer if set, and resets the attempt counter to
zero.  It does not touch `status`. -/
def cleanup (s : HookState) : HookState :=
  { s with es := false, esUrl := "", reconnectTimer := none, attempt := 0 }

/-- The effect body from useSSE.ts: when disabled, set status to
disconnected and register no cleanup; when enabled, call connect()
(cleanup is registered for the next teardown). -/
def effectBody (s : HookState) : HookState :=
  if s.enabled then connect s else { s with status := .disconnected }

/-- Mounting the hook: fresh refs, status initialised to disconnected, then
the effect body runs. -/
def mount (projectId : String) (enabled : Bool) : HookState :=
  effectBody { status := .disconnected, es := false, esUrl := "",
               reconnectTimer := none, attempt := 0,
               enabled := enabled, projectId := projectId }

/-- A change of the `enabled` prop: if unchanged the effect does not re-run;
otherwise React runs the previous cleanup (which exists only when the
previous body was the enabled branch) and then the body with the new prop. -/
def setEnabled (b : Bool) (s : HookState) : HookState :=
  if b = s.enabled then s
  else effectBody { (if s.enabled then cleanup s else s) with enabled := b }

/-- A change of the `projectId` prop (connect is recreated, so the effect
re-runs): previous cleanup if registered, then the body with the new prop. -/
def setProject (p : String) (s : HookState) : HookState :=
  if p = s.projectId then s
  else effectBody { (if s.enabled then cleanup s else s) with projectId := p }

/-- Unmounting the hook: the previous cleanup runs (when registered) and no
body follows. -/
def unmount (s : HookState) : HookState :=
  if s.enabled then cleanup s else s

/-- An inbound frame with label t and raw data: a listener exists only on
the open EventSource and only for labels in EVENT_TYPES; the listener runs
JSON.parse on the data and, on success, invokes onEvent with
`{ type: t, data }`; when JSON.parse throws, the exception ends that one
listener invocation and nothing else happens.  Returns the new state and
the event delivered to the observer, if any. -/
def onFrame (t : String) (raw : RawData) (s : HookState) : HookState × Option SSEEvent :=
  (s, if s.es = true ∧ t ∈ EVENT_TYPES then
        (parseJson raw).map (fun j => (⟨t, j⟩ : SSEEvent))
      else none)

/-- The external stimuli that drive one mounted hook instance. -/
inductive Stim
  | tOpen
  | tError
  | tTimer
  | tEnable (b : Bool)
  | tProject (p : String)
  | tFrame (t : String) (raw : RawData)

/-- One step of the hook under a stimulus. -/
def step : Stim → HookState → HookState
  | .tOpen, s => onOpen s
  | .tError, s => onError s
  | .tTimer, s => timerFire s
  | .tEnable b, s => setEnabled b s
  | .tProject p, s => setProject p s
  | .tFrame t raw, s => (onFrame t raw s).1

/-- The states reachable from some mount by any sequence of stimuli. -/
inductive Reachable : HookState → Prop
  | init (p : String) (e : Bool) : Reachable (mount p e)
  | next (σ : Stim) {s : HookState} : Reachable s → Reachable (step σ s)

/-- Structural invariant of reachable hook states: an open EventSource
implies a non-disconnected status, and a disabled hook holds no EventSource
and no pending timer. -/
def Inv (s : HookState) : Prop :=
  (s.es = true → s.status ≠ .disconnected)
  ∧ (s.enabled = false → s.es = false ∧ s.reconnectTimer = none)

/-- The status transitions the code can actually take in one step:
unchanged, disconnected→connecting, connecting→connected,
connected→disconnected, connecting→disconnected, or connected→connecting
(re-activation with a changed partition key). -/
def statusStepOK (a b : SSEStatus) : Prop :=
  a = b
  ∨ (a = .disconnected ∧ b = .connecting)
  ∨ (a = .connecting ∧ b = .connected)
  ∨ (a = .connected ∧ b = .disconnected)
  ∨ (a = .connecting ∧ b = .disconnected)
  ∨ (a = .connected ∧ b = .connecting)

/-- Modelled from the spec: the transition set the spec declares valid —
disconnected→connecting, connecting→connected, connected|connecting→
disconnected, and no others (self-loops are not transitions). -/
def claimedStatusStepOK (a b : SSEStatus) : Prop :=
  a = b
  ∨ (a = .disconnected ∧ b = .connecting)
  ∨ (a = .connecting ∧ b = .connected)
  ∨ (a = .connected ∧ b = .disconnected)
  ∨ (a = .connecting ∧ b = .disconnected)

/-- One full failure cycle: a transport error followed by its reconnect
timer firing (which reopens the channel). -/
def failCycle (s : HookState) : HookState := timerFire (onError s)

/-- n consecutive failure cycles. -/
def afterFailCycles : Nat → HookState → HookState
  | 0, s => s
  | n + 1, s => afterFailCycles n (failCycle s)

/-- The onEvent observer of BoardPage.tsx: the switch on event.type,
returning the list of query keys passed to queryClient.invalidateQueries
(each key is the array literal in the source, here a list of strings).
`pipeline_created` falls through to the `pipeline_updated` case; `log` and
`heartbeat` hit no case and invalidate nothing. -/
def boardOnEvent (projectId : String) (e : SSEEvent) : List (List String) :=
  if e.type = "pipeline_created" ∨ e.type = "pipeline_updated" then
    [["pipelines", projectId]]
  else if e.type = "pipeline_completed" then
    [["pipelines", projectId], ["history", projectId], ["history-stats", projectId]]
  else []

/-- Modelled from the spec: the required payload fields for each defined
event-type label of the inbound wire contract
(`pipeline_created {pipeline_id, project_id, ticket_id, state}`,
`pipeline_updated {pipeline_id, state, previous_state}`,
`pipeline_completed {pipeline_id, final_state}`,
`log {pipeline_id, level, message, timestamp}`, `heartbeat {}`).  The
dashboard source performs no such per-label validation; this definition
exists only to state what "the expected shape for that label" means. -/
def requiredFields : String → List String
  | "pipeline_created" => ["pipeline_id", "project_id", "ticket_id", "state"]
  | "pipeline_updated" => ["pipeline_id", "state", "previous_state"]
  | "pipeline_completed" => ["pipeline_id", "final_state"]
  | "log" => ["pipeline_id", "level", "message", "timestamp"]
  | _ => []

/-- Modelled from the spec: a payload parses against the expected shape for
a label when it is a JSON object carrying every required field of that
label. -/
def matchesExpectedShape (label : String) (j : JValue) : Bool :=
  match j with
  | .obj fields => (requiredFields label).all (fun f => fields.any (fun kv => kv.1 = f))
  | _ => false

/-- The onEvent observer of useLogStream.ts acting on the logs state: for a
log event whose data.pipeline_id strictly equals the hook's pipelineId, the
functional state update appends the payload at the end; every other event
leaves the logs unchanged. -/
def logStreamStep (pipelineId : String) (logs : List JValue) (e : SSEEvent) : List JValue :=
  if e.type = "log" then
    if strictEqStr (e.data.getField "pipeline_id") pipelineId then logs ++ [e.data]
    else logs
  else logs

/-- Whether one event is a log event for the given pipeline, i.e. passes
both guards of useLogStream.onEvent. -/
def logMatches (pipelineId : String) (e : SSEEvent) : Bool :=
  decide (e.type = "log") && strictEqStr (e.data.getField "pipeline_id") pipelineId

/-- The logs buffer after a sequence of dispatched events, starting from a
given buffer, with a fixed pipelineId. -/
def runLogs (pipelineId : String) (logs : List JValue) (evts : List SSEEvent) : List JValue :=
  evts.foldl (logStreamStep pipelineId) logs

/-- The state of one mounted useLogStream hook instance: the logs state
variable and the current pipelineId prop (captured by the onEvent
callback). -/
structure LogHookState where
  logs : List JValue
  pipelineId : String

/-- Stimuli for the log-stream hook: an event dispatched by the underlying
connection, or a change of the pipelineId prop. -/
inductive LogStim
  | arrive (e : SSEEvent)
  | setPipeline (p : String)

/-- One step of the log-stream hook.  A pipelineId change recreates the
onEvent callback (it reads the new prop) but runs no effect: nothing in
useLogStream.ts clears the logs state, so the buffer is untouched. -/
def logHookStep : LogHookState → LogStim → LogHookState
  | s, .arrive e => { s with logs := logStreamStep s.pipelineId s.logs e }
  | s, .setPipeline p => { s with pipelineId := p }

/-- The log-stream hook after a sequence of stimuli. -/
def runLogHook : LogHookState → List LogStim → LogHookState :=
  List.foldl logHookStep

/-- A concrete well-formed log event for pipeline pipe-1. -/
def evLogP1 : SSEEvent :=
  ⟨"log", .obj [("pipeline_id", .jstr "pipe-1"), ("level", .jstr "info"),
                ("message", .jstr "Building..."),
                ("timestamp", .jstr "2024-01-10T00:00:00Z")]⟩

/-- A concrete well-formed log event for pipeline pipe-2. -/
def evLogP2 : SSEEvent :=
  ⟨"log", .obj [("pipeline_id", .jstr "pipe-2"), ("level", .jstr "info"),
                ("message", .jstr "Linking..."),
                ("timestamp", .jstr "2024-01-10T00:00:01Z")]⟩

/-- A concrete pipeline_updated event. -/
def evUpdated : SSEEvent :=
  ⟨"pipeline_updated", .obj [("pipeline_id", .jstr "pipe-1"),
                             ("state", .jstr "coding"),
                             ("previous_state", .jstr "queued")]⟩

/-- A failure cycle from a state with an open channel: the error closes the
channel and bumps the counter, the timer fires and connect reopens it. -/
theorem failCycle_eq (s : HookState) (hes : s.es = true) :
    failCycle s
      = { status := .connecting, es := true, esUrl := sseUrl s.projectId,
          reconnectTimer := none, attempt := s.attempt + 1,
          enabled := s.enabled, projectId := s.projectId } := by
  simp [failCycle, onError, timerFire, connect, hes]

/-- Iterated failure cycles keep the channel open, add one to the attempt
counter per cycle, and preserve the partition key. -/
theorem afterFailCycles_spec (n : Nat) :
    ∀ s : HookState, s.es = true →
      (afterFailCycles n s).es = true
      ∧ (afterFailCycles n s).attempt = s.attempt + n
      ∧ (afterFailCycles n s).projectId = s.projectId := by
  induction n with
  | zero => intro s hes; exact ⟨hes, rfl, rfl⟩
  | succ n ih =>
      intro s hes
      have hcyc := failCycle_eq s hes
      have h := ih (failCycle s) (by rw [hcyc])
      have hstep : afterFailCycles (n + 1) s = afterFailCycles n (failCycle s) := rfl
      refine ⟨hstep ▸ h.1, ?_, ?_⟩
      · rw [hstep, h.2.1, hcyc]
        show s.attempt + 1 + n = s.attempt + (n + 1)
        omega
      · rw [hstep, h.2.2, hcyc]

/-- The delay scheduled at a transport error is exactly the pure backoff
function of the counter read at that moment. -/
theorem onError_timer (s : HookState) (hes : s.es = true) :
    (onError s).reconnectTimer = some (reconnectDelay s.attempt) := by
  simp [onError, hes]

/-- C1: for every n ≥ 1, the reconnect delay computed at the n-th
consecutive failed attempt since the last successful open (counter 0) is
min(1000 * 2^(n-1), 30000) ms; the scheduled delay is always the pure
function reconnectDelay of the attempt counter (deterministic, no jitter);
and for n = 1..6 the delays are 1000, 2000, 4000, 8000, 16000, 30000. -/
theorem backoff_delay_formula (n : Nat) (s : HookState)
    (hn : 1 ≤ n) (hes : s.es = true) (h0 : s.attempt = 0) :
    (onError (afterFailCycles (n - 1) s)).reconnectTimer
      = some (min (1000 * 2 ^ (n - 1)) 30000)
    ∧ (∀ s2 : HookState, s2.es = true →
        (onError s2).reconnectTimer = some (reconnectDelay s2.attempt))
    ∧ reconnectDelay 0 = 1000 ∧ reconnectDelay 1 = 2000 ∧ reconnectDelay 2 = 4000
    ∧ reconnectDelay 3 = 8000 ∧ reconnectDelay 4 = 16000 ∧ reconnectDelay 5 = 30000 := by
  have h := afterFailCycles_spec (n - 1) s hes
  refine ⟨?_, fun s2 h2 => onError_timer s2 h2, by decide, by decide, by decide,
          by decide, by decide, by decide⟩
  rw [onError_timer _ h.1, h.2.1, h0]
  simp [reconnectDelay, RECONNECT_BASE_MS, RECONNECT_MAX_MS]

/-- Witness for backoff_delay_formula at n = 3 on a freshly mounted hook:
the third consecutive failure is scheduled with a 4000 ms delay. -/
theorem backoff_delay_formula_witness :
    1 ≤ 3 ∧ (mount "proj-1" true).es = true ∧ (mount "proj-1" true).attempt = 0
    ∧ (onError (afterFailCycles (3 - 1) (mount "proj-1" true))).reconnectTimer
        = some (min (1000 * 2 ^ (3 - 1)) 30000)
    ∧ min (1000 * 2 ^ (3 - 1)) 30000 = 4000 :=
  ⟨by decide, rfl, rfl,
   (backoff_delay_formula 3 (mount "proj-1" true) (by decide) rfl rfl).1,
   by decide⟩

/-- C2: the attempt counter increments by exactly one on every transport
error and resets to zero on every transition to connected; in a
failure → successful open → failure sequence, the delay scheduled at the
failure after the success is again 1000 ms. -/
theorem attempt_counter_inc_reset (s : HookState) (hes : s.es = true) :
    (onError s).attempt = s.attempt + 1
    ∧ (onOpen s).attempt = 0
    ∧ (onOpen s).status = .connected
    ∧ (onError (onOpen (timerFire (onError s)))).reconnectTimer = some 1000 := by
  refine ⟨by simp [onError, hes], by simp [onOpen, hes], by simp [onOpen, hes], ?_⟩
  simp [onError, onOpen, timerFire, connect, hes, reconnectDelay,
        RECONNECT_BASE_MS, RECONNECT_MAX_MS]

/-- Witness for attempt_counter_inc_reset on a freshly mounted hook. -/
theorem attempt_counter_inc_reset_witness :
    (mount "proj-1" true).es = true
    ∧ (onError (onOpen (timerFire (onError (mount "proj-1" true))))).reconnectTimer
        = some 1000 :=
  ⟨rfl, (attempt_counter_inc_reset (mount "proj-1" true) rfl).2.2.2⟩

/-- Deactivating an enabled hook by the `enabled` prop going false: the
previous cleanup runs and the disabled effect body sets the status. -/
theorem setEnabled_false_eq (s : HookState) (hen : s.enabled = true) :
    setEnabled false s
      = { status := .disconnected, es := false, esUrl := "", reconnectTimer := none,
          attempt := 0, enabled := false, projectId := s.projectId } := by
  simp [setEnabled, hen, cleanup, effectBody]

/-- C3: deactivation (unmount, or the `enabled` prop going false)
synchronously closes the transport, cancels any pending reconnect timer
(the cancelled timer can never fire: firing is a no-op afterwards), and
resets the attempt counter to zero, so that after re-activation the first
failure is again scheduled with the base 1000 ms delay. -/
theorem deactivation_cancels (s : HookState) (hen : s.enabled = true) :
    (setEnabled false s).es = false
    ∧ (setEnabled false s).reconnectTimer = none
    ∧ (setEnabled false s).attempt = 0
    ∧ (setEnabled false s).status = .disconnected
    ∧ timerFire (setEnabled false s) = setEnabled false s
    ∧ (unmount s).es = false
    ∧ (unmount s).reconnectTimer = none
    ∧ (unmount s).attempt = 0
    ∧ timerFire (unmount s) = unmount s
    ∧ (onError (setEnabled true (setEnabled false s))).reconnectTimer = some 1000 := by
  have hd := setEnabled_false_eq s hen
  refine ⟨by rw [hd], by rw [hd], by rw [hd], by rw [hd], ?_, ?_, ?_, ?_, ?_, ?_⟩
  · rw [hd]
    rfl
  · simp [unmount, hen, cleanup]
  · simp [unmount, hen, cleanup]
  · simp [unmount, hen, cleanup]
  · simp [unmount, hen, cleanup, timerFire]
  · rw [hd]
    simp [setEnabled, effectBody, connect, onError, reconnectDelay,
          RECONNECT_BASE_MS, RECONNECT_MAX_MS]

/-- Witness for deactivation_cancels at a state that holds a pending
reconnect timer (a mounted hook right after a transport error). -/
theorem deactivation_cancels_witness :
    (onError (mount "proj-1" true)).enabled = true
    ∧ (onError (mount "proj-1" true)).reconnectTimer = some 1000
    ∧ timerFire (setEnabled false (onError (mount "proj-1" true)))
        = setEnabled false (onError (mount "proj-1" true))
    ∧ (setEnabled false (onError (mount "proj-1" true))).attempt = 0 :=
  ⟨rfl, by decide,
   (deactivation_cancels (onError (mount "proj-1" true)) rfl).2.2.2.2.1,
   (deactivation_cancels (onError (mount "proj-1" true)) rfl).2.2.1⟩

/-- C8: every transport error on an open channel closes it, goes to
disconnected, increments the counter, schedules exactly one reconnect with
the computed backoff delay, and the timer firing reopens the channel at the
URL for the same partition key; iterating failure cycles any number of
times keeps retrying with the same partition key (no maximum retry count). -/
theorem transport_error_retries (s : HookState) (hes : s.es = true) :
    (onError s).es = false
    ∧ (onError s).status = .disconnected
    ∧ (onError s).attempt = s.attempt + 1
    ∧ (onError s).reconnectTimer = some (reconnectDelay s.attempt)
    ∧ (timerFire (onError s)).es = true
    ∧ (timerFire (onError s)).esUrl = sseUrl s.projectId
    ∧ (timerFire (onError s)).status = .connecting
    ∧ (∀ n : Nat, (afterFailCycles n s).es = true
        ∧ (afterFailCycles n s).projectId = s.projectId) := by
  refine ⟨by simp [onError, hes], by simp [onError, hes], by simp [onError, hes],
          onError_timer s hes, ?_, ?_, ?_,
          fun n => ⟨(afterFailCycles_spec n s hes).1, (afterFailCycles_spec n s hes).2.2⟩⟩
  all_goals simp [timerFire, onError, connect, hes]

/-- Witness for transport_error_retries on a freshly mounted hook. -/
theorem transport_error_retries_witness :
    (mount "proj-1" true).es = true
    ∧ (timerFire (onError (mount "proj-1" true))).esUrl = sseUrl "proj-1" :=
  ⟨rfl, (transport_error_retries (mount "proj-1" true) rfl).2.2.2.2.2.1⟩

/-- C4: the board reconciliation observer invalidates exactly the keys of
the reconciliation table: pipeline_created and pipeline_updated invalidate
only the pipeline list of the board's project (the partition key of the
stream the event arrived on), pipeline_completed exactly the pipeline list,
history list and history aggregate stats of that project, and log and
heartbeat events invalidate nothing. -/
theorem board_reconciliation_table (p : String) (j : JValue) :
    boardOnEvent p ⟨"pipeline_created", j⟩ = [["pipelines", p]]
    ∧ boardOnEvent p ⟨"pipeline_updated", j⟩ = [["pipelines", p]]
    ∧ boardOnEvent p ⟨"pipeline_completed", j⟩
        = [["pipelines", p], ["history", p], ["history-stats", p]]
    ∧ boardOnEvent p ⟨"log", j⟩ = []
    ∧ boardOnEvent p ⟨"heartbeat", j⟩ = [] := by
  refine ⟨?_, ?_, ?_, ?_, ?_⟩ <;> simp [boardOnEvent]

/-- C9: no frame labeled heartbeat is ever delivered to an observer: the
hook registers listeners only for the four labels of EVENT_TYPES, and
heartbeat — although one of the five defined event-type labels of the wire
contract — is not among them. -/
theorem heartbeat_never_dispatched :
    (∀ (s : HookState) (raw : RawData), (onFrame "heartbeat" raw s).2 = none)
    ∧ "heartbeat" ∈ SSE_EVENT_TYPE_LABELS
    ∧ "heartbeat" ∉ EVENT_TYPES
    ∧ EVENT_TYPES = ["pipeline_created", "pipeline_updated", "pipeline_completed", "log"] := by
  refine ⟨?_, by decide, by decide, rfl⟩
  intro s raw
  have hmem : "heartbeat" ∉ EVENT_TYPES := by decide
  simp [onFrame, hmem]

/-- C5 as stated is false on the code: the hook performs no per-label shape
validation, so a frame whose payload is valid JSON but does not match the
expected shape for its label (here a log frame whose payload is the empty
object, missing every required field) is not dropped — it is delivered to
the observer unchanged. -/
theorem decode_shape_cex :
    matchesExpectedShape "log" (JValue.obj []) = false
    ∧ (onFrame "log" (RawData.valid (JValue.obj [])) (mount "proj-1" true)).2
        = some ⟨"log", JValue.obj []⟩
    ∧ (onFrame "log" (RawData.valid (JValue.obj [])) (mount "proj-1" true)).1
        = mount "proj-1" true := by
  refine ⟨rfl, ?_, rfl⟩
  simp [onFrame, parseJson, mount, effectBody, connect, EVENT_TYPES]

/-- C5 amended: a frame whose payload is not syntactically valid JSON is
dropped silently — the JSON.parse exception ends only that listener
invocation, so the hook state (in particular status and the open channel)
is unchanged, no observer is invoked, and a subsequent frame with a valid
JSON payload for a registered label is still dispatched; frames whose
payload parses as JSON are dispatched regardless of shape. -/
theorem decode_failure_isolated (s : HookState) (t t2 : String) (j : JValue)
    (hes : s.es = true) (ht2 : t2 ∈ EVENT_TYPES) :
    (onFrame t RawData.invalid s).1 = s
    ∧ (onFrame t RawData.invalid s).2 = none
    ∧ (onFrame t RawData.invalid s).1.status = s.status
    ∧ (onFrame t RawData.invalid s).1.es = true
    ∧ (onFrame t2 (RawData.valid j) (onFrame t RawData.invalid s).1).2 = some ⟨t2, j⟩ := by
  refine ⟨rfl, ?_, rfl, hes, ?_⟩
  · simp [onFrame, parseJson]
  · simp [onFrame, parseJson, hes, ht2]

/-- Witness for decode_failure_isolated: a malformed frame followed by a
well-formed log frame on a freshly mounted hook. -/
theorem decode_failure_isolated_witness :
    (mount "proj-1" true).es = true
    ∧ "log" ∈ EVENT_TYPES
    ∧ (onFrame "log" (RawData.valid evLogP1.data)
        (onFrame "log" RawData.invalid (mount "proj-1" true)).1).2
        = some ⟨"log", evLogP1.data⟩ :=
  ⟨rfl, by decide,
   (decode_failure_isolated (mount "proj-1" true) "log" "log" evLogP1.data rfl
     (by decide)).2.2.2.2⟩

/-- Witness for board_reconciliation_table at project proj-1 with an empty
payload object. -/
theorem board_reconciliation_table_witness :
    boardOnEvent "proj-1" ⟨"pipeline_completed", JValue.obj []⟩
      = [["pipelines", "proj-1"], ["history", "proj-1"], ["history-stats", "proj-1"]]
    ∧ boardOnEvent "proj-1" ⟨"heartbeat", JValue.obj []⟩ = [] :=
  ⟨(board_reconciliation_table "proj-1" (JValue.obj [])).2.2.1,
   (board_reconciliation_table "proj-1" (JValue.obj [])).2.2.2.2⟩

/-- Witness for heartbeat_never_dispatched on a freshly mounted hook. -/
theorem heartbeat_never_dispatched_witness :
    (onFrame "heartbeat" (RawData.valid (JValue.obj [])) (mount "proj-1" true)).2 = none :=
  heartbeat_never_dispatched.1 (mount "proj-1" true) (RawData.valid (JValue.obj []))

/-- The two nested guards of useLogStream.onEvent, as a single test. -/
theorem logStreamStep_eq (P : String) (logs : List JValue) (e : SSEEvent) :
    logStreamStep P logs e = if logMatches P e = true then logs ++ [e.data] else logs := by
  unfold logStreamStep logMatches
  by_cases h1 : e.type = "log" <;>
    by_cases h2 : strictEqStr (e.data.getField "pipeline_id") P = true <;>
      simp [h1, h2]

/-- Folding the log-tail update over a sequence of events appends exactly
the payloads of the matching events, in arrival order. -/
theorem runLogs_append (P : String) (evts : List SSEEvent) :
    ∀ logs : List JValue,
      runLogs P logs evts = logs ++ (evts.filter (logMatches P)).map SSEEvent.data := by
  induction evts with
  | nil => intro logs; simp [runLogs]
  | cons e evts ih =>
      intro logs
      have hstep : runLogs P logs (e :: evts) = runLogs P (logStreamStep P logs e) evts := rfl
      rw [hstep, ih, logStreamStep_eq]
      by_cases h : logMatches P e = true <;> simp [h, List.filter_cons]

/-- C6: the scoped log tail attached to pipelineId P holds exactly the
payloads of the log events whose pipeline_id equals P, in arrival order; a
matching event appends exactly one entry equal to its payload at the end;
every event leaves the prior buffer a prefix of the new buffer; and a log
event for a different pipeline P1 leaves a tail attached to P2 unchanged. -/
theorem scoped_log_tail (P P1 P2 : String) (evts : List SSEEvent)
    (logs : List JValue) (e : SSEEvent) :
    runLogs P [] evts = (evts.filter (logMatches P)).map SSEEvent.data
    ∧ (logMatches P e = true → logStreamStep P logs e = logs ++ [e.data])
    ∧ (logStreamStep P logs e = logs ∨ logStreamStep P logs e = logs ++ [e.data])
    ∧ (e.type = "log" → e.data.getField "pipeline_id" = some (JValue.jstr P1) →
        P1 ≠ P2 → logStreamStep P2 logs e = logs) := by
  refine ⟨by simpa using runLogs_append P evts [], ?_, ?_, ?_⟩
  · intro h
    rw [logStreamStep_eq, if_pos h]
  · rw [logStreamStep_eq]
    by_cases h : logMatches P e = true <;> simp [h]
  · intro h1 h2 hne
    rw [logStreamStep_eq, if_neg]
    simp [logMatches, h1, h2, strictEqStr, hne]

/-- Witness for scoped_log_tail: a log event for pipe-1 appends its payload
to a tail attached to pipe-1 and leaves a tail attached to pipe-2
unchanged; a three-event stream filters down to the pipe-1 payload. -/
theorem scoped_log_tail_witness :
    runLogs "pipe-1" [] [evLogP1, evUpdated, evLogP2]
      = ([evLogP1, evUpdated, evLogP2].filter (logMatches "pipe-1")).map SSEEvent.data
    ∧ logStreamStep "pipe-1" [] evLogP1 = [] ++ [evLogP1.data]
    ∧ logStreamStep "pipe-2" [] evLogP1 = [] :=
  ⟨(scoped_log_tail "pipe-1" "pipe-1" "pipe-2" [evLogP1, evUpdated, evLogP2] [] evLogP1).1,
   (scoped_log_tail "pipe-1" "pipe-1" "pipe-2" [] [] evLogP1).2.1 (by decide),
   (scoped_log_tail "pipe-1" "pipe-1" "pipe-2" [] [] evLogP1).2.2.2 rfl rfl
     (by decide)⟩

/-- Processing a sequence of arriving events with a fixed pipelineId prop
is the plain fold of the log-tail update; the prop is unchanged. -/
theorem runLogHook_arrives (evts : List SSEEvent) :
    ∀ s : LogHookState,
      runLogHook s (evts.map LogStim.arrive)
        = ⟨runLogs s.pipelineId s.logs evts, s.pipelineId⟩ := by
  induction evts with
  | nil => intro s; rfl
  | cons e evts ih =>
      intro s
      have hstep : runLogHook s ((e :: evts).map LogStim.arrive)
          = runLogHook ⟨logStreamStep s.pipelineId s.logs e, s.pipelineId⟩
              (evts.map LogStim.arrive) := rfl
      rw [hstep, ih]
      rfl

/-- C10: changing the pipelineId prop of a mounted log-stream hook from P1
to P2 does not clear the buffer — every accumulated entry remains — and
subsequent events matching P2 are appended after them. -/
theorem rekey_preserves_buffer (s : LogHookState) (P2 : String) (evts : List SSEEvent) :
    (logHookStep s (.setPipeline P2)).logs = s.logs
    ∧ (runLogHook (logHookStep s (.setPipeline P2)) (evts.map LogStim.arrive)).logs
        = s.logs ++ (evts.filter (logMatches P2)).map SSEEvent.data := by
  refine ⟨rfl, ?_⟩
  rw [runLogHook_arrives]
  show runLogs P2 s.logs evts = _
  rw [runLogs_append]

/-- Witness for rekey_preserves_buffer: a buffer accumulated under pipe-1
survives the switch to pipe-2 and gains the pipe-2 payload after it. -/
theorem rekey_preserves_buffer_witness :
    (logHookStep ⟨[evLogP1.data], "pipe-1"⟩ (.setPipeline "pipe-2")).logs = [evLogP1.data]
    ∧ (runLogHook (logHookStep ⟨[evLogP1.data], "pipe-1"⟩ (.setPipeline "pipe-2"))
        ([evLogP2].map LogStim.arrive)).logs
        = [evLogP1.data] ++ ([evLogP2].filter (logMatches "pipe-2")).map SSEEvent.data :=
  ⟨(rekey_preserves_buffer ⟨[evLogP1.data], "pipe-1"⟩ "pipe-2" [evLogP2]).1,
   (rekey_preserves_buffer ⟨[evLogP1.data], "pipe-1"⟩ "pipe-2" [evLogP2]).2⟩

/-- A freshly mounted hook satisfies the structural invariant. -/
theorem inv_mount (p : String) (e : Bool) : Inv (mount p e) := by
  cases e <;> constructor <;> intro h <;>
    simp_all [Inv, mount, effectBody, connect]

/-- Every stimulus preserves the structural invariant. -/
theorem inv_step (σ : Stim) (s : HookState) (h : Inv s) : Inv (step σ s) := by
  obtain ⟨h1, h2⟩ := h
  cases σ with
  | tOpen =>
      show Inv (onOpen s)
      cases hes : s.es with
      | false =>
          have hid : onOpen s = s := by simp [onOpen, hes]
          rw [hid]; exact ⟨h1, h2⟩
      | true =>
          constructor
          · intro _
            simp [onOpen, hes]
          · intro hen
            have hen2 : s.enabled = false := by simpa [onOpen, hes] using hen
            have hf := (h2 hen2).1
            rw [hes] at hf
            exact absurd hf (by decide)
  | tError =>
      show Inv (onError s)
      cases hes : s.es with
      | false =>
          have hid : onError s = s := by simp [onError, hes]
          rw [hid]; exact ⟨h1, h2⟩
      | true =>
          constructor
          · intro hes2
            simp [onError, hes] at hes2
          · intro hen
            have hen2 : s.enabled = false := by simpa [onError, hes] using hen
            have hf := (h2 hen2).1
            rw [hes] at hf
            exact absurd hf (by decide)
  | tTimer =>
      show Inv (timerFire s)
      cases ht : s.reconnectTimer with
      | none =>
          have hid : timerFire s = s := by simp [timerFire, ht]
          rw [hid]; exact ⟨h1, h2⟩
      | some d =>
          constructor
          · intro _
            simp [timerFire, ht, connect]
          · intro hen
            have hen2 : s.enabled = false := by simpa [timerFire, ht, connect] using hen
            have hf := (h2 hen2).2
            rw [ht] at hf
            exact absurd hf (by simp)
  | tEnable b =>
      show Inv (setEnabled b s)
      cases hsen : s.enabled with
      | true =>
          cases b with
          | true =>
              have hid : setEnabled true s = s := by simp [setEnabled, hsen]
              rw [hid]; exact ⟨h1, h2⟩
          | false =>
              rw [setEnabled_false_eq s hsen]
              exact ⟨by simp, by simp⟩
      | false =>
          cases b with
          | false =>
              have hid : setEnabled false s = s := by simp [setEnabled, hsen]
              rw [hid]; exact ⟨h1, h2⟩
          | true =>
              constructor
              · intro _
                simp [setEnabled, hsen, effectBody, connect]
              · intro hen
                simp [setEnabled, hsen, effectBody, connect] at hen
  | tProject p =>
      show Inv (setProject p s)
      by_cases hp : p = s.projectId
      · have hid : setProject p s = s := by simp [setProject, hp]
        rw [hid]; exact ⟨h1, h2⟩
      · cases hsen : s.enabled with
        | true =>
            constructor
            · intro _
              simp [setProject, hp, hsen, cleanup, effectBody, connect]
            · intro hen
              simp [setProject, hp, hsen, cleanup, effectBody, connect] at hen
        | false =>
            have hes := (h2 hsen).1
            have ht := (h2 hsen).2
            constructor
            · intro hes2
              simp [setProject, hp, hsen, effectBody, hes] at hes2
            · intro _
              constructor <;> simp [setProject, hp, hsen, effectBody, hes, ht]
  | tFrame t raw =>
      show Inv (onFrame t raw s).1
      exact ⟨h1, h2⟩

/-- Every reachable hook state satisfies the structural invariant. -/
theorem reachable_inv (s : HookState) (h : Reachable s) : Inv s := by
  induction h with
  | init p e => exact inv_mount p e
  | next σ h ih => exact inv_step σ _ ih

/-- C7 as stated is false on the code: from a reachable connected state,
re-activation with a changed partition key moves the status directly from
connected to connecting — the effect cleanup closes the old channel without
writing the status, so the claimed transition set (which lacks
connected→connecting) is violated. -/
theorem status_transitions_cex :
    Reachable (onOpen (mount "p1" true))
    ∧ (onOpen (mount "p1" true)).status = SSEStatus.connected
    ∧ (step (Stim.tProject "p2") (onOpen (mount "p1" true))).status = SSEStatus.connecting
    ∧ ¬ claimedStatusStepOK SSEStatus.connected SSEStatus.connecting :=
  ⟨Reachable.next Stim.tOpen (Reachable.init "p1" true), rfl, by decide,
   by unfold claimedStatusStepOK; decide⟩

/-- C7 amended: the status starts at disconnected and, under every sequence
of stimuli, each step either leaves the status unchanged or takes one of
the transitions disconnected→connecting, connecting→connected,
connected→disconnected, connecting→disconnected, or — on re-activation
with a changed partition key — connected→connecting; in particular
disconnected→connected is never taken. -/
theorem status_transitions (s : HookState) (hr : Reachable s) (σ : Stim) :
    statusStepOK s.status (step σ s).status := by
  obtain ⟨h1, h2⟩ := reachable_inv s hr
  cases σ with
  | tOpen =>
      cases hes : s.es with
      | false =>
          have hid : step Stim.tOpen s = s := by simp [step, onOpen, hes]
          rw [hid]; exact Or.inl rfl
      | true =>
          have hnew : (step Stim.tOpen s).status = .connected := by simp [step, onOpen, hes]
          rw [hnew]
          have hst := h1 hes
          cases hss : s.status with
          | disconnected => exact absurd hss hst
          | connecting => exact Or.inr (Or.inr (Or.inl ⟨rfl, rfl⟩))
          | connected => exact Or.inl rfl
  | tError =>
      cases hes : s.es with
      | false =>
          have hid : step Stim.tError s = s := by simp [step, onError, hes]
          rw [hid]; exact Or.inl rfl
      | true =>
          have hnew : (step Stim.tError s).status = .disconnected := by simp [step, onError, hes]
          rw [hnew]
          have hst := h1 hes
          cases hss : s.status with
          | disconnected => exact absurd hss hst
          | connecting => exact Or.inr (Or.inr (Or.inr (Or.inr (Or.inl ⟨rfl, rfl⟩))))
          | connected => exact Or.inr (Or.inr (Or.inr (Or.inl ⟨rfl, rfl⟩)))
  | tTimer =>
      cases ht : s.reconnectTimer with
      | none =>
          have hid : step Stim.tTimer s = s := by simp [step, timerFire, ht]
          rw [hid]; exact Or.inl rfl
      | some d =>
          have hnew : (step Stim.tTimer s).status = .connecting := by
            simp [step, timerFire, ht, connect]
          rw [hnew]
          cases s.status with
          | disconnected => exact Or.inr (Or.inl ⟨rfl, rfl⟩)
          | connecting => exact Or.inl rfl
          | connected => exact Or.inr (Or.inr (Or.inr (Or.inr (Or.inr ⟨rfl, rfl⟩))))
  | tEnable b =>
      cases hsen : s.enabled with
      | true =>
          cases b with
          | true =>
              have hid : step (Stim.tEnable true) s = s := by simp [step, setEnabled, hsen]
              rw [hid]; exact Or.inl rfl
          | false =>
              have hnew : (step (Stim.tEnable false) s).status = .disconnected := by
                rw [show step (Stim.tEnable false) s = setEnabled false s from rfl,
                    setEnabled_false_eq s hsen]
              rw [hnew]
              cases s.status with
              | disconnected => exact Or.inl rfl
              | connecting => exact Or.inr (Or.inr (Or.inr (Or.inr (Or.inl ⟨rfl, rfl⟩))))
              | connected => exact Or.inr (Or.inr (Or.inr (Or.inl ⟨rfl, rfl⟩)))
      | false =>
          cases b with
          | false =>
              have hid : step (Stim.tEnable false) s = s := by simp [step, setEnabled, hsen]
              rw [hid]; exact Or.inl rfl
          | true =>
              have hnew : (step (Stim.tEnable true) s).status = .connecting := by
                simp [step, setEnabled, hsen, effectBody, connect]
              rw [hnew]
              cases s.status with
              | disconnected => exact Or.inr (Or.inl ⟨rfl, rfl⟩)
              | connecting => exact Or.inl rfl
              | connected => exact Or.inr (Or.inr (Or.inr (Or.inr (Or.inr ⟨rfl, rfl⟩))))
  | tProject p =>
      by_cases hp : p = s.projectId
      · have hid : step (Stim.tProject p) s = s := by simp [step, setProject, hp]
        rw [hid]; exact Or.inl rfl
      · cases hsen : s.enabled with
        | true =>
            have hnew : (step (Stim.tProject p) s).status = .connecting := by
              simp [step, setProject, hp, hsen, cleanup, effectBody, connect]
            rw [hnew]
            cases s.status with
            | disconnected => exact Or.inr (Or.inl ⟨rfl, rfl⟩)
            | connecting => exact Or.inl rfl
            | connected => exact Or.inr (Or.inr (Or.inr (Or.inr (Or.inr ⟨rfl, rfl⟩))))
        | false =>
            have hnew : (step (Stim.tProject p) s).status = .disconnected := by
              simp [step, setProject, hp, hsen, effectBody]
            rw [hnew]
            cases s.status with
            | disconnected => exact Or.inl rfl
            | connecting => exact Or.inr (Or.inr (Or.inr (Or.inr (Or.inl ⟨rfl, rfl⟩))))
            | connected => exact Or.inr (Or.inr (Or.inr (Or.inl ⟨rfl, rfl⟩)))
  | tFrame t raw =>
      exact Or.inl rfl

/-- Witness for status_transitions: the first step from a fresh mount. -/
theorem status_transitions_witness :
    Reachable (mount "p1" true)
    ∧ statusStepOK (mount "p1" true).status (step Stim.tOpen (mount "p1" true)).status :=
  ⟨Reachable.init "p1" true,
   status_transitions (mount "p1" true) (Reachable.init "p1" true) Stim.tOpen⟩

end VibeCC
